import Mathlib

/-!
Verification of the `ai-context` CLI core (`src/cli.ts`).

The program resolves a list of glob patterns to a de-duplicated, sorted set of
relative file paths, renders each file as an annotated fenced code block, and
writes one Markdown document.  The development below shallowly embeds the two
components with non-trivial semantics:

* the output-path resolution in `main` (CLI flag > config file > default,
  decided by provenance via `program.getOptionValueSource('output')` and by
  JavaScript truthiness of the supplied values), embedded as
  `AiContext.resolveOutputPath`;
* the aggregation and rendering loop `generateContextFile`, embedded as
  `AiContext.generateContextFile`.  File-system effects are abstracted by
  parameters: `scan` maps a pattern to the relative paths its glob scan
  yields, `read` maps a path to `some` text content or `none` on a read
  failure, and `writeOk` records whether the final output write succeeds.
  The result captures the document handed to the writer, the read-failure
  warnings, and the process exit code.

Strings are compared and trimmed with structural-recursion helpers over
`String.data` so that every definition evaluates by `decide` on concrete
inputs; they mirror JavaScript string comparison (code-unit order restricted
to the code points used in paths), `String.prototype.trim`, Node's
`path.extname`, and the `replace(/\\/g, '/')` normalization in the source.
-/

namespace AiContext

/-- A glob pattern, as stored in the `patterns` array of the user config. -/
abbrev Pattern := String

/-- Lexicographic comparison of character lists by code point, the order
JavaScript's default `Array.prototype.sort` uses on strings. -/
def strLeB : List Char → List Char → Bool
  | [], _ => true
  | _ :: _, [] => false
  | a :: as, b :: bs =>
      if a.toNat < b.toNat then true
      else if b.toNat < a.toNat then false
      else strLeB as bs

/-- Lexicographic order on path strings (embeds the comparison used by the
JavaScript `sort()` call in `generateContextFile`). -/
def pathLe (a b : String) : Bool := strLeB a.data b.data

/-- `pathLe` as a relation, for use with `List.insertionSort`. -/
def pathLeRel : String → String → Prop := fun a b => pathLe a b = true

instance : DecidableRel pathLeRel := fun _ _ => inferInstanceAs (Decidable (_ = true))

/-- JavaScript `String.prototype.trim`: drop leading and trailing whitespace,
leaving the interior untouched (embeds `fileContent.trim()`). -/
def jsTrim (s : String) : String :=
  String.mk (((s.data.dropWhile Char.isWhitespace).reverse.dropWhile Char.isWhitespace).reverse)

/-- The `relativeFilePath.replace(/\\/g, '/')` normalization of the source. -/
def normalizeSlashes (s : String) : String :=
  String.mk (s.data.map fun c => if c = '\\' then '/' else c)

/-- Node `path.extname` on a single path segment: the suffix starting at the
last `'.'`, except that a name without a dot, a name whose only dot is its
first character (a dotfile), and the special name `".."` give the empty
extension. -/
def extnameBase (base : List Char) : List Char :=
  let tail := (base.reverse.takeWhile (fun d => d != '.')).reverse
  if tail.length = base.length then []
  else if base.length = tail.length + 1 then []
  else if base = ['.', '.'] then []
  else '.' :: tail

/-- `path.extname(p).substring(1)`, the language tag the source attaches to a
fenced code block: Node `path.extname` of the final path segment, with the
leading dot removed. -/
def extensionOf (p : String) : String :=
  String.mk ((extnameBase ((p.data.reverse.takeWhile (fun d => d != '/')).reverse)).drop 1)

/-- One per-file section of the rendered document, exactly as the loop body of
`generateContextFile` appends it: annotation line, fenced block with language
tag, trimmed content, closing fence, blank line. -/
def fileSection (relativeFilePath fileContent : String) : String :=
  let normalizedPathComment := normalizeSlashes relativeFilePath
  "// path: " ++ normalizedPathComment ++ "\n"
    ++ "```" ++ extensionOf normalizedPathComment ++ "\n"
    ++ jsTrim fileContent ++ "\n"
    ++ "```\n\n"

/-- The language tag as the specification's words describe it: the substring
after the last `'.'` of the filename, empty when the filename has no dot.
(Refinement comparison target for the section format; `extensionOf` is the
source's behavior.) -/
def extAfterLastDotSpec (p : String) : String :=
  let base := (p.data.reverse.takeWhile (fun d => d != '/')).reverse
  if base.all (fun d => d != '.') then ""
  else String.mk ((base.reverse.takeWhile (fun d => d != '.')).reverse)

/-- The per-file section as the specification's words describe it: a
`path: <relative path>` annotation line (no comment marker) and the
substring-after-last-dot language tag.  (Refinement comparison target;
`fileSection` is the source's behavior.) -/
def fileSectionSpec (relativeFilePath fileContent : String) : String :=
  let n := normalizeSlashes relativeFilePath
  "path: " ++ n ++ "\n"
    ++ "```" ++ extAfterLastDotSpec n ++ "\n"
    ++ jsTrim fileContent ++ "\n"
    ++ "```\n\n"

/-- The two-line header comment block of the rendered document. -/
def headerBlock (timestamp configRelPath : String) : String :=
  "<!-- Context generated by ai-context on " ++ timestamp ++ " -->\n"
    ++ "<!-- Config file: " ++ configRelPath ++ " -->\n\n"

/-- One step of the accumulating `Set` in `generateContextFile`:
`matchedFilePaths.add(file)` keeps insertion order and ignores duplicates. -/
def addUnique (acc : List String) (f : String) : List String :=
  if f ∈ acc then acc else acc ++ [f]

/-- The matched-file accumulation: every pattern is scanned in array order and
every match is added to the single accumulating set. -/
def collectMatches (scan : Pattern → List String) (patterns : List Pattern) : List String :=
  ((patterns.map scan).flatten).foldl addUnique []

/-- `Array.from(matchedFilePaths).sort()`: the de-duplicated matches in
lexicographic order. -/
def filesToInclude (scan : Pattern → List String) (patterns : List Pattern) : List String :=
  List.insertionSort pathLeRel (collectMatches scan patterns)

/-- The concatenated per-file sections: a file whose read fails contributes
nothing, a file whose read succeeds contributes its `fileSection`. -/
def renderBody (read : String → Option String) (files : List String) : String :=
  String.join (files.filterMap (fun f => (read f).map (fileSection f)))

/-- The files that actually receive a section in the document: the matched
files whose read succeeds. -/
def renderedFiles (read : String → Option String) (files : List String) : List String :=
  files.filter (fun f => (read f).isSome)

/-- Observable outcome of one `generateContextFile` run: the document handed
to the output write, the paths that produced read-failure warnings, and the
process exit code. -/
structure GenResult where
  doc : String
  warnings : List String
  exitCode : Nat
deriving DecidableEq

/-- The aggregation engine `generateContextFile`.  `scan` abstracts
`new Glob(pattern).scan('.')`, `read` abstracts `Bun.file(...).text()` (with
`none` for a thrown read error), and `writeOk` records whether the final
`Bun.write` succeeds (a failed write exits 1, in the main path through the
`catch` block and in the sentinel paths through the top-level
`main().catch`). -/
def generateContextFile (scan : Pattern → List String) (read : String → Option String)
    (writeOk : Bool) (timestamp configRelPath : String) (patterns : List Pattern) : GenResult :=
  if patterns.length = 0 then
    { doc := "# No files matched the provided patterns.\n"
      warnings := []
      exitCode := if writeOk then 0 else 1 }
  else if (filesToInclude scan patterns).length = 0 then
    { doc := "# No files matched any of the provided patterns.\n"
      warnings := []
      exitCode := if writeOk then 0 else 1 }
  else
    { doc := headerBlock timestamp configRelPath ++ renderBody read (filesToInclude scan patterns)
      warnings := (filesToInclude scan patterns).filter (fun f => (read f).isNone)
      exitCode := if writeOk then 0 else 1 }

/-- Where the `--output` option's value came from, as reported by
`program.getOptionValueSource('output')`. -/
inductive OutputSource
  | cli
  | other
deriving DecidableEq

/-- JavaScript truthiness of an optional string: `undefined` and `""` are
falsy, every other string is truthy. -/
def truthy : Option String → Bool
  | none => false
  | some v => v != ""

/-- The output-path resolution in `main`:
`if (outputSource === 'cli' && cliOptions.output) ... else if
(userConfig.output) ... else default`. -/
def resolveOutputPath (outputSource : OutputSource) (cliOutput configOutput : Option String)
    (defaultOutputFileName : String) : String :=
  if outputSource = OutputSource.cli ∧ truthy cliOutput = true then
    cliOutput.getD ""
  else if truthy configOutput = true then
    configOutput.getD ""
  else
    defaultOutputFileName

theorem strLeB_total (a b : List Char) : strLeB a b = true ∨ strLeB b a = true := by
  induction a generalizing b with
  | nil => left; cases b <;> rfl
  | cons x xs ih =>
      cases b with
      | nil => right; rfl
      | cons y ys =>
          rcases Nat.lt_trichotomy x.toNat y.toNat with h | h | h
          · left; simp [strLeB, h]
          · have hx : ¬ x.toNat < y.toNat := by omega
            have hy : ¬ y.toNat < x.toNat := by omega
            rcases ih ys with h2 | h2
            · left; simp [strLeB, hx, hy, h2]
            · right; simp [strLeB, hx, hy, h2]
          · right; simp [strLeB, h]

theorem strLeB_trans (a b c : List Char) (hab : strLeB a b = true) (hbc : strLeB b c = true) :
    strLeB a c = true := by
  induction a generalizing b c with
  | nil => cases c <;> simp [strLeB]
  | cons x xs ih =>
      cases b with
      | nil => simp [strLeB] at hab
      | cons y ys =>
          cases c with
          | nil => simp [strLeB] at hbc
          | cons z zs =>
              simp only [strLeB] at hab hbc ⊢
              by_cases h1 : x.toNat < y.toNat
              · by_cases h2 : y.toNat < z.toNat
                · have h3 : x.toNat < z.toNat := Nat.lt_trans h1 h2
                  simp [h3]
                · by_cases h3 : z.toNat < y.toNat
                  · simp [h2, h3] at hbc
                  · have h4 : x.toNat < z.toNat := by omega
                    simp [h4]
              · by_cases h1' : y.toNat < x.toNat
                · simp [h1, h1'] at hab
                · by_cases h2 : y.toNat < z.toNat
                  · have h4 : x.toNat < z.toNat := by omega
                    simp [h4]
                  · by_cases h3 : z.toNat < y.toNat
                    · simp [h2, h3] at hbc
                    · have h4 : ¬ x.toNat < z.toNat := by omega
                      have h5 : ¬ z.toNat < x.toNat := by omega
                      simp only [h1, h1', if_false] at hab
                      simp only [h2, h3, if_false] at hbc
                      simp only [h4, h5, if_false]
                      exact ih ys zs hab hbc

instance : IsTotal String pathLeRel := ⟨fun a b => strLeB_total a.data b.data⟩

instance : IsTrans String pathLeRel := ⟨fun a b c => strLeB_trans a.data b.data c.data⟩

theorem mem_addUnique {acc : List String} {x a : String} :
    a ∈ addUnique acc x ↔ a ∈ acc ∨ a = x := by
  unfold addUnique
  split
  · rename_i h
    constructor
    · exact Or.inl
    · rintro (ha | rfl)
      · exact ha
      · exact h
  · simp

theorem mem_foldl_addUnique (l : List String) (acc : List String) (a : String) :
    a ∈ l.foldl addUnique acc ↔ a ∈ acc ∨ a ∈ l := by
  induction l generalizing acc with
  | nil => simp
  | cons x xs ih =>
      rw [List.foldl_cons, ih, mem_addUnique]
      simp [or_assoc]

theorem nodup_foldl_addUnique (l : List String) (acc : List String) (h : acc.Nodup) :
    (l.foldl addUnique acc).Nodup := by
  induction l generalizing acc with
  | nil => exact h
  | cons x xs ih =>
      refine ih _ ?_
      unfold addUnique
      split
      · exact h
      · rename_i hx
        simp [List.nodup_append, h, hx]

theorem mem_collectMatches {scan : Pattern → List String} {patterns : List Pattern} {a : String} :
    a ∈ collectMatches scan patterns ↔ ∃ p ∈ patterns, a ∈ scan p := by
  unfold collectMatches
  rw [mem_foldl_addUnique]
  simp [List.mem_flatten]

theorem nodup_collectMatches (scan : Pattern → List String) (patterns : List Pattern) :
    (collectMatches scan patterns).Nodup :=
  nodup_foldl_addUnique _ _ List.nodup_nil

theorem perm_filesToInclude (scan : Pattern → List String) (patterns : List Pattern) :
    (filesToInclude scan patterns).Perm (collectMatches scan patterns) :=
  List.perm_insertionSort pathLeRel _

theorem renderBody_eq (read : String → Option String) (files : List String) :
    renderBody read files
      = String.join ((renderedFiles read files).map (fun f => fileSection f ((read f).getD ""))) := by
  unfold renderBody renderedFiles
  congr 1
  induction files with
  | nil => rfl
  | cons f fs ih =>
      cases h : read f <;> simp [List.filterMap_cons, List.filter_cons, h, ih]

/-- C1: for every pattern list, the set of files rendered in the output
document equals the de-duplicated union of the matches of all patterns over
the working directory, and no file appears twice, provided every matched file
is readable. -/
theorem rendered_set_eq_union_of_matches (scan : Pattern → List String)
    (read : String → Option String) (patterns : List Pattern)
    (hread : ∀ f ∈ filesToInclude scan patterns, (read f).isSome = true) :
    (renderedFiles read (filesToInclude scan patterns)).toFinset
        = ((patterns.map scan).flatten).toFinset
      ∧ (renderedFiles read (filesToInclude scan patterns)).Nodup := by
  have hfilter : renderedFiles read (filesToInclude scan patterns)
      = filesToInclude scan patterns := by
    unfold renderedFiles
    exact List.filter_eq_self.mpr hread
  have hperm := perm_filesToInclude scan patterns
  constructor
  · rw [hfilter]
    ext a
    simp only [List.mem_toFinset]
    rw [hperm.mem_iff, mem_collectMatches]
    simp [List.mem_flatten]
  · rw [hfilter]
    exact hperm.nodup_iff.mpr (nodup_collectMatches scan patterns)

/-- C1 witness: a concrete run in which the file `y.txt` is matched by both
patterns and appears exactly once. -/
theorem rendered_set_eq_union_of_matches_witness :
    (renderedFiles (fun _ => some "c")
        (filesToInclude (fun p => if p = "a" then ["x.txt", "y.txt"] else ["y.txt"])
          ["a", "b"])).toFinset
        = ((["a", "b"].map (fun p => if p = "a" then ["x.txt", "y.txt"] else ["y.txt"])).flatten).toFinset
      ∧ (renderedFiles (fun _ => some "c")
          (filesToInclude (fun p => if p = "a" then ["x.txt", "y.txt"] else ["y.txt"])
            ["a", "b"])).Nodup :=
  rendered_set_eq_union_of_matches _ _ _ (by decide)

/-- C2: the file sections of the rendered document appear in lexicographic
order of their relative paths, and two runs over the same file set produce
identical documents apart from the timestamp in the header line. -/
theorem doc_sorted_and_reproducible (scan : Pattern → List String)
    (read : String → Option String) (patterns : List Pattern)
    (t1 t2 configRelPath : String)
    (hpat : patterns.length ≠ 0)
    (hne : (filesToInclude scan patterns).length ≠ 0) :
    List.Sorted pathLeRel (renderedFiles read (filesToInclude scan patterns))
      ∧ ∃ rest : String,
          (generateContextFile scan read true t1 configRelPath patterns).doc
              = "<!-- Context generated by ai-context on " ++ t1 ++ " -->\n" ++ rest
            ∧ (generateContextFile scan read true t2 configRelPath patterns).doc
              = "<!-- Context generated by ai-context on " ++ t2 ++ " -->\n" ++ rest := by
  constructor
  · exact (List.sorted_insertionSort pathLeRel _).filter _
  · refine ⟨"<!-- Config file: " ++ configRelPath ++ " -->\n\n"
        ++ renderBody read (filesToInclude scan patterns), ?_, ?_⟩ <;>
      simp only [generateContextFile, if_neg hpat, if_neg hne, headerBlock,
        String.append_assoc]

/-- C2 witness: a concrete run over two files, sorted, with two timestamps
sharing the remainder of the document. -/
theorem doc_sorted_and_reproducible_witness :
    List.Sorted pathLeRel
        (renderedFiles (fun _ => some "hi") (filesToInclude (fun _ => ["b.txt", "a.txt"]) ["p"]))
      ∧ ∃ rest : String,
          (generateContextFile (fun _ => ["b.txt", "a.txt"]) (fun _ => some "hi")
              true "T1" "cfg.ts" ["p"]).doc
              = "<!-- Context generated by ai-context on " ++ "T1" ++ " -->\n" ++ rest
            ∧ (generateContextFile (fun _ => ["b.txt", "a.txt"]) (fun _ => some "hi")
              true "T2" "cfg.ts" ["p"]).doc
              = "<!-- Context generated by ai-context on " ++ "T2" ++ " -->\n" ++ rest :=
  doc_sorted_and_reproducible _ _ _ "T1" "T2" _ (by decide) (by decide)

/-- C3: accumulation of the matched-file set is purely additive: everything
collected from a prefix of the pattern list is still present after the whole
list is processed, every pattern in the list — in particular one prefixed
with `'!'` — is processed as an inclusion scan whose matches all land in the
accumulated set, and no pattern removes a previously added path. -/
theorem aggregation_purely_additive (scan : Pattern → List String)
    (pre suff : List Pattern) (q : Pattern)
    (hq : q ∈ pre ++ suff) (_hbang : q.data.headD ' ' = '!') :
    (∀ f ∈ collectMatches scan pre, f ∈ collectMatches scan (pre ++ suff))
      ∧ (∀ p ∈ pre ++ suff, ∀ f ∈ scan p, f ∈ collectMatches scan (pre ++ suff))
      ∧ (∀ f ∈ scan q, f ∈ collectMatches scan (pre ++ suff)) := by
  have hadd : ∀ p ∈ pre ++ suff, ∀ f ∈ scan p, f ∈ collectMatches scan (pre ++ suff) := by
    intro p hp f hf
    exact mem_collectMatches.mpr ⟨p, hp, hf⟩
  refine ⟨?_, hadd, hadd q hq⟩
  intro f hf
  rcases mem_collectMatches.mp hf with ⟨p, hp, hfp⟩
  exact mem_collectMatches.mpr ⟨p, List.mem_append_left _ hp, hfp⟩

/-- C3 witness: a concrete list containing the exclusion-marked pattern
`"!a"`, whose scan matches are nevertheless in the accumulated set, and whose
processing removes nothing. -/
theorem aggregation_purely_additive_witness :
    (∀ f ∈ collectMatches (fun p => if p = "!a" then ["x"] else ["y"]) ["!a"],
        f ∈ collectMatches (fun p => if p = "!a" then ["x"] else ["y"]) (["!a"] ++ ["b"]))
      ∧ (∀ p ∈ ["!a"] ++ ["b"], ∀ f ∈ (fun p => if p = "!a" then ["x"] else ["y"]) p,
          f ∈ collectMatches (fun p => if p = "!a" then ["x"] else ["y"]) (["!a"] ++ ["b"]))
      ∧ (∀ f ∈ (fun p => if p = "!a" then ["x"] else ["y"]) "!a",
          f ∈ collectMatches (fun p => if p = "!a" then ["x"] else ["y"]) (["!a"] ++ ["b"])) :=
  aggregation_purely_additive _ _ _ _ (by decide) (by decide)

/-- C4 counterexample: an `--output` value that was explicitly supplied on the
CLI does not always win — when it is the empty string, the resolver falls back
to the config value instead of using the CLI-supplied value. -/
theorem output_precedence_counterexample :
    resolveOutputPath OutputSource.cli (some "") (some "b.md") "prompt.md" = "b.md"
      ∧ resolveOutputPath OutputSource.cli (some "") (some "b.md") "prompt.md" ≠ "" := by
  exact ⟨by decide, by decide⟩

/-- C4 (amended): the resolved output path follows the precedence CLI explicit
non-empty value > non-empty config value > default; the CLI branch is decided
by provenance plus truthiness, never by comparing the value with the default
(an explicit CLI value equal to the default still wins), an unset CLI flag
always falls through, and an empty-string config value behaves like an absent
one. -/
theorem output_precedence_amended (src : OutputSource) (cliOutput configOutput : Option String)
    (c b d : String) (hc : c ≠ "") (hb : b ≠ "") :
    resolveOutputPath OutputSource.cli (some c) configOutput d = c
      ∧ resolveOutputPath OutputSource.other cliOutput (some b) d = b
      ∧ resolveOutputPath OutputSource.other cliOutput none d = d
      ∧ resolveOutputPath OutputSource.cli none configOutput d
          = resolveOutputPath OutputSource.other none configOutput d
      ∧ resolveOutputPath src cliOutput (some "") d = resolveOutputPath src cliOutput none d := by
  refine ⟨?_, ?_, ?_, ?_, ?_⟩
  · simp [resolveOutputPath, truthy, hc]
  · simp [resolveOutputPath, truthy, hb]
  · simp [resolveOutputPath, truthy]
  · simp [resolveOutputPath, truthy]
  · cases src <;> cases cliOutput <;> simp [resolveOutputPath, truthy]

/-- C4 witness: precedence at concrete values, including a CLI value equal to
the default. -/
theorem output_precedence_amended_witness :
    resolveOutputPath OutputSource.cli (some "prompt.md") (some "b.md") "prompt.md" = "prompt.md"
      ∧ resolveOutputPath OutputSource.other (some "a.md") (some "b.md") "prompt.md" = "b.md"
      ∧ resolveOutputPath OutputSource.other (some "a.md") none "prompt.md" = "prompt.md"
      ∧ resolveOutputPath OutputSource.cli none (some "b.md") "prompt.md"
          = resolveOutputPath OutputSource.other none (some "b.md") "prompt.md"
      ∧ resolveOutputPath OutputSource.cli (some "a.md") (some "") "prompt.md"
          = resolveOutputPath OutputSource.cli (some "a.md") none "prompt.md" :=
  output_precedence_amended OutputSource.cli (some "a.md") (some "b.md") "prompt.md" "b.md"
    "prompt.md" (by decide) (by decide)

/-- C10: an `--output` flag explicitly supplied with the empty string does not
take the CLI branch — the resolver behaves exactly as if the flag were unset,
falling back to the config value, or to the default when the config has
none. -/
theorem cli_empty_output_falls_back (configOutput : Option String) (b d : String) (hb : b ≠ "") :
    (configOutput = some b → resolveOutputPath OutputSource.cli (some "") configOutput d = b)
      ∧ (configOutput = none → resolveOutputPath OutputSource.cli (some "") configOutput d = d)
      ∧ resolveOutputPath OutputSource.cli (some "") configOutput d
          = resolveOutputPath OutputSource.cli none configOutput d := by
  refine ⟨?_, ?_, ?_⟩
  · rintro rfl
    simp [resolveOutputPath, truthy, hb]
  · rintro rfl
    simp [resolveOutputPath, truthy]
  · simp [resolveOutputPath, truthy]

/-- C10 witness: explicit empty CLI value with config `b.md` resolves to
`b.md`. -/
theorem cli_empty_output_falls_back_witness :
    resolveOutputPath OutputSource.cli (some "") (some "b.md") "prompt.md" = "b.md" :=
  (cli_empty_output_falls_back (some "b.md") "b.md" "prompt.md" (by decide)).1 rfl

/-- C5: when a matched file fails to read, exactly that file is skipped — it
gets no section and no entry among the rendered files — a warning naming it is
surfaced, the document still consists of the header followed by the sections
of every readable file in order, and the exit code is unchanged (0 when the
output write succeeds). -/
theorem read_failure_skips_only_that_file (scan : Pattern → List String)
    (read : String → Option String) (patterns : List Pattern) (t c bad : String)
    (hpat : patterns.length ≠ 0)
    (hmem : bad ∈ filesToInclude scan patterns)
    (hbad : read bad = none) :
    bad ∉ renderedFiles read (filesToInclude scan patterns)
      ∧ bad ∈ (generateContextFile scan read true t c patterns).warnings
      ∧ (generateContextFile scan read true t c patterns).doc
          = headerBlock t c
            ++ String.join ((renderedFiles read (filesToInclude scan patterns)).map
                (fun f => fileSection f ((read f).getD "")))
      ∧ (generateContextFile scan read true t c patterns).exitCode = 0 := by
  have hne : (filesToInclude scan patterns).length ≠ 0 := by
    intro h
    rw [List.length_eq_zero] at h
    rw [h] at hmem
    exact (List.not_mem_nil bad) hmem
  refine ⟨?_, ?_, ?_, ?_⟩
  · intro hcontra
    rw [renderedFiles, List.mem_filter, hbad] at hcontra
    simp at hcontra
  · simp only [generateContextFile, if_neg hpat, if_neg hne]
    rw [List.mem_filter]
    exact ⟨hmem, by rw [hbad]; rfl⟩
  · simp only [generateContextFile, if_neg hpat, if_neg hne]
    rw [renderBody_eq]
  · have h1 : patterns ≠ [] := fun h => hpat (by rw [h]; rfl)
    have h2 : filesToInclude scan patterns ≠ [] := fun h => hne (by rw [h]; rfl)
    simp [generateContextFile, h1, h2]

/-- C5 witness: a concrete run where `bad.txt` fails to read and `good.txt`
is still rendered. -/
theorem read_failure_skips_only_that_file_witness :
    "bad.txt" ∉ renderedFiles (fun f => if f = "good.txt" then some " x " else none)
        (filesToInclude (fun _ => ["bad.txt", "good.txt"]) ["p"])
      ∧ "bad.txt" ∈ (generateContextFile (fun _ => ["bad.txt", "good.txt"])
          (fun f => if f = "good.txt" then some " x " else none) true "T" "cfg.ts" ["p"]).warnings
      ∧ (generateContextFile (fun _ => ["bad.txt", "good.txt"])
          (fun f => if f = "good.txt" then some " x " else none) true "T" "cfg.ts" ["p"]).doc
          = headerBlock "T" "cfg.ts"
            ++ String.join ((renderedFiles (fun f => if f = "good.txt" then some " x " else none)
                (filesToInclude (fun _ => ["bad.txt", "good.txt"]) ["p"])).map
                (fun f => fileSection f
                  (((fun f => if f = "good.txt" then some " x " else none) f).getD "")))
      ∧ (generateContextFile (fun _ => ["bad.txt", "good.txt"])
          (fun f => if f = "good.txt" then some " x " else none) true "T" "cfg.ts" ["p"]).exitCode
          = 0 :=
  read_failure_skips_only_that_file _ _ _ "T" "cfg.ts" "bad.txt"
    (by decide) (by decide) (by decide)

/-- C6 counterexample: for the file `.env` with content `X`, the rendered
section is not of the claimed form — the path-annotation line carries a `// `
comment marker (`// path: .env`, not `path: .env`) and the language tag of a
dotfile is empty rather than the substring after the last dot (`env`). -/
theorem section_format_counterexample :
    fileSection ".env" "X" = "// path: .env\n```\nX\n```\n\n"
      ∧ fileSectionSpec ".env" "X" = "path: .env\n```env\nX\n```\n\n"
      ∧ fileSection ".env" "X" ≠ fileSectionSpec ".env" "X" := by
  exact ⟨by decide, by decide, by decide⟩

/-- C6 (amended): every matched readable file contributes the section
`// path: <relative path>` (separators normalized to forward slashes), then a
fenced block tagged with Node extname semantics — the substring after the last
dot of the filename, except that a file with no dot and a dotfile get an empty
tag — whose body is the file's text trimmed of leading and trailing whitespace
with internal formatting preserved, then a blank line; the document starts
with the two-line header comment block carrying the timestamp and the config
path relative to the working directory. -/
theorem document_format_amended (relPath content : String) (scan : Pattern → List String)
    (read : String → Option String) (patterns : List Pattern) (t c : String)
    (hpat : patterns.length ≠ 0)
    (hne : (filesToInclude scan patterns).length ≠ 0) :
    (generateContextFile scan read true t c patterns).doc
        = headerBlock t c
          ++ String.join ((filesToInclude scan patterns).filterMap
              (fun f => (read f).map (fun text => fileSection f text)))
      ∧ fileSection relPath content
          = "// path: " ++ normalizeSlashes relPath ++ "\n"
            ++ "```" ++ extensionOf (normalizeSlashes relPath) ++ "\n"
            ++ jsTrim content ++ "\n"
            ++ "```\n\n"
      ∧ fileSection "dir\\a.ts" " x\n y " = "// path: dir/a.ts\n```ts\nx\n y\n```\n\n"
      ∧ extensionOf "src/a.ts" = "ts"
      ∧ extensionOf "Makefile" = ""
      ∧ extensionOf "a.tar.gz" = "gz"
      ∧ jsTrim "  a\n b \n" = "a\n b" := by
  refine ⟨?_, rfl, by decide, by decide, by decide, by decide, by decide⟩
  simp only [generateContextFile, if_neg hpat, if_neg hne]
  rfl

/-- C6 witness: the document of a concrete run has the header followed by the
per-file sections. -/
theorem document_format_amended_witness :
    (generateContextFile (fun _ => ["a.ts"]) (fun _ => some "s") true "T" "cfg.ts" ["p"]).doc
        = headerBlock "T" "cfg.ts"
          ++ String.join ((filesToInclude (fun _ => ["a.ts"]) ["p"]).filterMap
              (fun f => ((fun _ => some "s") f).map (fun text => fileSection f text)))
      ∧ fileSection "b/c.md" " hi "
          = "// path: " ++ normalizeSlashes "b/c.md" ++ "\n"
            ++ "```" ++ extensionOf (normalizeSlashes "b/c.md") ++ "\n"
            ++ jsTrim " hi " ++ "\n"
            ++ "```\n\n"
      ∧ fileSection "dir\\a.ts" " x\n y " = "// path: dir/a.ts\n```ts\nx\n y\n```\n\n"
      ∧ extensionOf "src/a.ts" = "ts"
      ∧ extensionOf "Makefile" = ""
      ∧ extensionOf "a.tar.gz" = "gz"
      ∧ jsTrim "  a\n b \n" = "a\n b" :=
  document_format_amended "b/c.md" " hi " _ _ _ "T" "cfg.ts" (by decide) (by decide)

/-- C7: with an empty pattern list the engine writes the no-patterns sentinel
document and exits 0; with patterns but an empty matched set it writes the
no-matches sentinel document and exits 0 — both are defined terminal states,
not errors. -/
theorem sentinel_documents (scan : Pattern → List String) (read : String → Option String)
    (patterns : List Pattern) (t c : String)
    (hpat : patterns.length ≠ 0)
    (hempty : (filesToInclude scan patterns).length = 0) :
    ((generateContextFile scan read true t c []).doc
          = "# No files matched the provided patterns.\n"
        ∧ (generateContextFile scan read true t c []).exitCode = 0)
      ∧ ((generateContextFile scan read true t c patterns).doc
          = "# No files matched any of the provided patterns.\n"
        ∧ (generateContextFile scan read true t c patterns).exitCode = 0) := by
  have h1 : patterns ≠ [] := fun h => hpat (by rw [h]; rfl)
  have h2 : filesToInclude scan patterns = [] := List.length_eq_zero.mp hempty
  refine ⟨⟨rfl, rfl⟩, ?_, ?_⟩ <;> simp [generateContextFile, h1, h2]

/-- C7 witness: a concrete run with no patterns and a concrete run whose
single pattern matches nothing. -/
theorem sentinel_documents_witness :
    ((generateContextFile (fun _ => []) (fun _ => none) true "T" "cfg.ts" []).doc
          = "# No files matched the provided patterns.\n"
        ∧ (generateContextFile (fun _ => []) (fun _ => none) true "T" "cfg.ts" []).exitCode = 0)
      ∧ ((generateContextFile (fun _ => []) (fun _ => none) true "T" "cfg.ts" ["a"]).doc
          = "# No files matched any of the provided patterns.\n"
        ∧ (generateContextFile (fun _ => []) (fun _ => none) true "T" "cfg.ts" ["a"]).exitCode
          = 0) :=
  sentinel_documents (fun _ => []) (fun _ => none) ["a"] "T" "cfg.ts" (by decide) (by decide)

/-- C8: a failed output write is fatal — exit code 1 — while a successful
write exits 0, and the exit code never depends on which per-file reads
failed. -/
theorem write_failure_fatal (scan : Pattern → List String)
    (read read2 : String → Option String) (writeOk : Bool) (t c : String)
    (patterns : List Pattern) :
    (generateContextFile scan read false t c patterns).exitCode = 1
      ∧ (generateContextFile scan read true t c patterns).exitCode = 0
      ∧ (generateContextFile scan read writeOk t c patterns).exitCode
          = (generateContextFile scan read2 writeOk t c patterns).exitCode := by
  have h : ∀ (rd : String → Option String) (w : Bool),
      (generateContextFile scan rd w t c patterns).exitCode = if w then 0 else 1 := by
    intro rd w
    simp only [generateContextFile]
    split
    · rfl
    · split <;> rfl
  refine ⟨by rw [h]; decide, by rw [h]; decide, by rw [h, h]⟩

/-- C9: when the matched set is non-empty but every read fails, the engine
still writes a document consisting of exactly the two header comment lines,
and exits 0. -/
theorem all_reads_fail_header_only (scan : Pattern → List String)
    (read : String → Option String) (patterns : List Pattern) (t c : String)
    (hpat : patterns.length ≠ 0)
    (hne : (filesToInclude scan patterns).length ≠ 0)
    (hfail : ∀ f ∈ filesToInclude scan patterns, read f = none) :
    (generateContextFile scan read true t c patterns).doc
        = "<!-- Context generated by ai-context on " ++ t ++ " -->\n"
          ++ "<!-- Config file: " ++ c ++ " -->\n\n"
      ∧ (generateContextFile scan read true t c patterns).exitCode = 0 := by
  have hbody : renderBody read (filesToInclude scan patterns) = "" := by
    unfold renderBody
    have hnil : (filesToInclude scan patterns).filterMap
        (fun f => (read f).map (fileSection f)) = [] := by
      rw [List.filterMap_eq_nil_iff]
      intro f hf
      rw [hfail f hf]
      rfl
    rw [hnil]
    rfl
  constructor
  · simp only [generateContextFile, if_neg hpat, if_neg hne]
    rw [hbody, String.append_empty]
    rfl
  · simp only [generateContextFile, if_neg hpat, if_neg hne]
    rfl

/-- C9 witness: a concrete run with one matched file whose read fails yields
the header-only document and exit 0. -/
theorem all_reads_fail_header_only_witness :
    (generateContextFile (fun _ => ["x.txt"]) (fun _ => none) true "T" "cfg.ts" ["p"]).doc
        = "<!-- Context generated by ai-context on " ++ "T" ++ " -->\n"
          ++ "<!-- Config file: " ++ "cfg.ts" ++ " -->\n\n"
      ∧ (generateContextFile (fun _ => ["x.txt"]) (fun _ => none) true "T" "cfg.ts" ["p"]).exitCode
        = 0 :=
  all_reads_fail_header_only (fun _ => ["x.txt"]) (fun _ => none) ["p"] "T" "cfg.ts"
    (by decide) (by decide) (by decide)

end AiContext
